import Mathlib

/-!
Shallow embedding of the Prometheus remote-write output plugin
(`plugins/outputs/prometheus_remote_write/prometheus_remote_write.go`).

Modelling conventions:
* Go `int64` timestamps (nanoseconds since epoch) are `Int`; Go integer
  division truncates toward zero, which is `Int.tdiv`.
* Go `float64` sample values are modelled by `ℚ` (the claims under study
  concern which fields produce series and value pass-through, not binary
  rounding); `int64`/`uint64` fields are modelled by `Int`/`Nat` and their
  cast to the sample value is the exact numeric embedding into `ℚ`.
* `sort.Sort(byName(labels))` sorts by `Labels.Name <` (byte-wise string
  comparison, which for UTF-8 agrees with code-point order, i.e. Lean's
  `String` order).  `sort.Sort` is unstable but always yields a permutation
  that is weakly sorted by name; we model it by insertion sort, one such
  permutation.
* Network, DNS, TLS, wall clock and the random jitter are oracles supplied
  through environment records; the functions below are the deterministic
  state transformers the Go code applies around those oracles.
-/

/-- TLS material produced by `ClientConfig.TLSConfig()`; its contents are
opaque to the shipper, so it is modelled abstractly. -/
structure TLSConfig where
  id : Nat
deriving DecidableEq, Repr

/-- One `http.Client{Transport: &http.Transport{TLSClientConfig: tlsConfig}}`
handle of the pool. -/
structure HttpClient where
  tlsConfig : TLSConfig
deriving DecidableEq, Repr

/-- Mutable fields of `PrometheusRemoteWrite` that the claims mention:
the handle pool `clients`, the round-robin cursor `nextIndex` and the
refresh deadline `nextResolve` (nanoseconds since epoch). -/
structure ShipperState where
  clients : List HttpClient
  nextIndex : Nat
  nextResolve : Int
deriving DecidableEq, Repr

/-- A metric field value (`telegraf.Metric` field), the tagged union the
`switch fv := field.Value.(type)` in `Write` discriminates on. -/
inductive FieldValue where
  | i64 (v : Int)
  | u64 (v : Nat)
  | f64 (v : ℚ)
  | str (s : String)
  | boolean (b : Bool)
deriving DecidableEq, Repr

/-- One tag of a metric record. -/
structure Tag where
  key : String
  value : String
deriving DecidableEq, Repr

/-- One field of a metric record. -/
structure MetricField where
  key : String
  value : FieldValue
deriving DecidableEq, Repr

/-- `telegraf.ValueType`: the metric kind. -/
inductive ValueType where
  | counter
  | gauge
  | histogram
  | summary
  | untyped
deriving DecidableEq, Repr

/-- A `telegraf.Metric` record as consumed by `Write`: name, tag list,
field list, timestamp in nanoseconds since epoch (`Time().UnixNano()`),
and metric kind (`Type()`). -/
structure Metric where
  name : String
  tags : List Tag
  fields : List MetricField
  timeNs : Int
  type : ValueType
deriving DecidableEq, Repr

/-- `prompb.Label`. -/
structure Label where
  name : String
  value : String
deriving DecidableEq, Repr

/-- `prompb.Sample`: timestamp in milliseconds since epoch, value. -/
structure Sample where
  timestamp : Int
  value : ℚ
deriving DecidableEq, Repr

/-- `prompb.TimeSeries` as built by `Write`: a label list plus its samples
(the encoder always attaches exactly one sample). -/
structure TimeSeries where
  labels : List Label
  samples : List Sample
deriving DecidableEq, Repr

/-- Modelled from the spec: `prometheus_client.Sanitize` (the prometheus
client plugin's label-key sanitizer, not under `src/`): coerce a tag key to
the label-name grammar `[a-zA-Z_][a-zA-Z0-9_]*`, replacing each invalid
character with `_`.  The first character may not be a digit; later
characters may. -/
def sanitizeHead (c : Char) : Char :=
  if c.isAlpha || c = '_' then c else '_'

/-- Modelled from the spec: sanitization of a non-leading character of a
label name (see `sanitizeHead`). -/
def sanitizeTail (c : Char) : Char :=
  if c.isAlphanum || c = '_' then c else '_'

/-- Modelled from the spec: `prometheus_client.Sanitize` applied to a whole
tag key. -/
def Sanitize (s : String) : String :=
  match s.toList with
  | [] => ""
  | c :: cs => String.mk (sanitizeHead c :: cs.map sanitizeTail)

/-- `strings.NewReplacer(".", "_", "-", "_").Replace` applied to the metric
name: every `.` and every `-` becomes `_`. -/
def renameMetric (s : String) : String :=
  String.mk (s.toList.map fun c => if c = '.' || c = '-' then '_' else c)

/-- Strict lexicographic order on character lists by code point.  Go
compares strings byte-wise; for UTF-8 encoded strings byte order and code
point order coincide, so this is Go's `<` on the underlying strings. -/
def lexLt : List Char → List Char → Bool
  | [], [] => false
  | [], _ :: _ => true
  | _ :: _, [] => false
  | a :: as, b :: bs =>
    if a.toNat < b.toNat then true
    else if b.toNat < a.toNat then false
    else lexLt as bs

/-- Go string `<`, the comparison `byName.Less` uses on label names. -/
def goStrLt (a b : String) : Bool := lexLt a.toList b.toList

/-- `lexLt _ []` is always `false`. -/
theorem lexLt_nil_right (a : List Char) : lexLt a [] = false := by
  cases a <;> rfl

/-- `lexLt` is asymmetric. -/
theorem lexLt_asymm :
    ∀ {a b : List Char}, lexLt a b = true → lexLt b a = false := by
  intro a
  induction a with
  | nil => intro b _; exact lexLt_nil_right b
  | cons x xs ih =>
    intro b hab
    cases b with
    | nil => simp [lexLt] at hab
    | cons y ys =>
      simp only [lexLt] at hab ⊢
      by_cases hxy : x.toNat < y.toNat
      · simp only [hxy, if_pos] at hab ⊢
        have : ¬ y.toNat < x.toNat := by omega
        simp [this, hxy]
      · by_cases hyx : y.toNat < x.toNat
        · simp [hxy, hyx] at hab
        · simp only [hxy, hyx, if_neg, if_false] at hab ⊢
          simp [hxy, hyx, ih hab]

/-- Negative transitivity of `lexLt`: the relation
`fun a b => lexLt b a = false` is transitive. -/
theorem lexLt_false_trans :
    ∀ {a b c : List Char},
      lexLt b a = false → lexLt c b = false → lexLt c a = false := by
  intro a
  induction a with
  | nil => intro b c _ _; exact lexLt_nil_right c
  | cons x xs ih =>
    intro b c hba hcb
    cases b with
    | nil => simp [lexLt] at hba
    | cons y ys =>
      cases c with
      | nil => simp [lexLt] at hcb
      | cons z zs =>
        simp only [lexLt] at hba hcb ⊢
        by_cases hyx : y.toNat < x.toNat
        · simp [hyx] at hba
        · by_cases hzy : z.toNat < y.toNat
          · simp [hzy] at hcb
          · by_cases hxy : x.toNat < y.toNat
            · have hzx : ¬ z.toNat < x.toNat := by omega
              have hxz : x.toNat < z.toNat := by omega
              simp [hzx, hxz]
            · by_cases hyz : y.toNat < z.toNat
              · have hzx : ¬ z.toNat < x.toNat := by omega
                have hxz : x.toNat < z.toNat := by omega
                simp [hzx, hxz]
              · have hexy : x.toNat = y.toNat := by omega
                have heyz : y.toNat = z.toNat := by omega
                have hzx : ¬ z.toNat < x.toNat := by omega
                have hxz : ¬ x.toNat < z.toNat := by omega
                simp only [hyx, hxy, if_neg, if_false] at hba
                simp only [hzy, hyz, if_neg, if_false] at hcb
                simp only [hzx, hxz, if_neg, if_false]
                exact ih hba hcb

/-- The (non-strict) ordering the sort establishes: `a` may precede `b`
when `¬ Less(b, a)`, i.e. `b`'s name is not smaller than `a`'s. -/
def labelLe (a b : Label) : Prop := goStrLt b.name a.name = false

instance : DecidableRel labelLe :=
  fun a b => inferInstanceAs (Decidable (goStrLt b.name a.name = false))

instance : IsTotal Label labelLe :=
  ⟨fun a b => by
    unfold labelLe
    rcases h : goStrLt b.name a.name with _ | _
    · exact Or.inl rfl
    · exact Or.inr (lexLt_asymm h)⟩

instance : IsTrans Label labelLe :=
  ⟨fun _ _ _ hab hbc => lexLt_false_trans hab hbc⟩

/-- `sort.Sort(byName(labels))`: some permutation of the labels weakly
sorted by name, modelled by insertion sort. -/
def sortLabels (ls : List Label) : List Label :=
  ls.insertionSort labelLe

/-- The common label set built from the record's tags: each tag key is
sanitized, the value copied verbatim. -/
def commonLabels (m : Metric) : List Label :=
  m.tags.map fun t => ⟨Sanitize t.key, t.value⟩

/-- The `__name__` label value for one field: rename-sanitized metric name,
`_`, field key. -/
def seriesName (m : Metric) (fieldKey : String) : String :=
  renameMetric m.name ++ "_" ++ fieldKey

/-- The full, sorted label list `Write` attaches to the series of one
field. -/
def seriesLabels (m : Metric) (fieldKey : String) : List Label :=
  sortLabels (commonLabels m ++ [⟨"__name__", seriesName m fieldKey⟩])

/-- Nanoseconds per millisecond (`int64(time.Millisecond)`). -/
def nsPerMs : Int := 1000000

/-- Nanoseconds per second (`int64(time.Second)`). -/
def nsPerSecond : Int := 1000000000

/-- `metric.Time().UnixNano() / int64(time.Millisecond)`: Go `int64`
division truncates toward zero. -/
def timeMs (m : Metric) : Int := Int.tdiv m.timeNs nsPerMs

/-- The value coercion `switch fv := field.Value.(type)` performs: `int64`
and `uint64` are cast to the sample value type, a float passes through,
anything else (`string`, `bool`) makes `Write` skip the field via
`continue`. -/
def coerceValue : FieldValue → Option ℚ
  | .i64 v => some (v : ℚ)
  | .u64 v => some (v : ℚ)
  | .f64 v => some v
  | .str _ => none
  | .boolean _ => none

/-- The body of the inner field loop of `Write`: build and sort the labels,
skip the whole record if its kind is Histogram or Summary, skip the field
if its value is non-numeric, otherwise emit one TimeSeries with one
Sample. -/
def encodeField (m : Metric) (f : MetricField) : Option TimeSeries :=
  let labels := seriesLabels m f.key
  match m.type with
  | .histogram => none
  | .summary => none
  | _ =>
    match coerceValue f.value with
    | none => none
    | some v => some ⟨labels, [⟨timeMs m, v⟩]⟩

/-- The series contributed by one metric record: the inner loop over
`metric.FieldList()`. -/
def encodeMetric (m : Metric) : List TimeSeries :=
  m.fields.filterMap (encodeField m)

/-- The encoding loop of `Write`: the `req.Timeseries` list accumulated
over the batch, in record-then-field order. -/
def encode (metrics : List Metric) : List TimeSeries :=
  metrics.flatMap encodeMetric

/-- Error kinds a call can surface (the Go code returns `error` values;
only their provenance and, for HTTP rejection, the status code matter to
the claims). -/
inductive Err where
  | tlsConfigError
  | urlParseError
  | dnsError
  | transportError
  | remoteRejected (status : Nat)
deriving DecidableEq, Repr

/-- Environment (oracle outcomes) for one run of `resolveDns`:
`tlsResult` is what `p.ClientConfig.TLSConfig()` returns (`none` = error),
`urlHost` is the hostname `url.Parse(p.URL)` yields (`none` = parse error),
`dns` is what `net.LookupIP` answers for a hostname (`none` = lookup
error; an IP address is abstract), `now` is `time.Now()` in nanoseconds
and `randJitter` is `rand.Intn(90)` (so `randJitter < 90`). -/
structure ResolveEnv where
  tlsResult : Option TLSConfig
  urlHost : Option String
  dns : String → Option (List String)
  now : Int
  randJitter : Nat

/-- `PrometheusRemoteWrite.resolveDns`, step by step:
1. obtain the TLS config (error → return, state untouched);
2. `p.clients = nil; p.clients = []http.Client{}` — the pool is emptied;
3. parse the URL (error → return, pool now empty);
4. `net.LookupIP` on the hostname (error → return, pool now empty);
5. set `p.nextResolve = now + 60s + rand.Intn(90)·1s`;
6. `for i := 0; i <= 5*len(ips); i++` append one client — that is
   `5·len(ips) + 1` handles.
The cursor `p.nextIndex` is never assigned.  Returns the error (if any)
together with the state the receiver is left in. -/
def resolveDns (env : ResolveEnv) (s : ShipperState) :
    Option Err × ShipperState :=
  match env.tlsResult with
  | none => (some .tlsConfigError, s)
  | some tlsConfig =>
    let s1 : ShipperState := { s with clients := [] }
    match env.urlHost with
    | none => (some .urlParseError, s1)
    | some host =>
      match env.dns host with
      | none => (some .dnsError, s1)
      | some ips =>
        let s2 : ShipperState :=
          { s1 with nextResolve :=
              env.now + 60 * nsPerSecond + (env.randJitter : Int) * nsPerSecond }
        (none, { s2 with
                  clients := List.replicate (5 * ips.length + 1) ⟨tlsConfig⟩ })

/-- `Connect` just runs `resolveDns`. -/
def connect (env : ResolveEnv) (s : ShipperState) :
    Option Err × ShipperState :=
  resolveDns env s

/-- Outcome of `p.clients[p.nextIndex].Do(httpReq)`: a transport-level
error, or a response with its HTTP status code. -/
inductive HttpResult where
  | transportError
  | response (status : Nat)
deriving DecidableEq, Repr

/-- Environment for one `Write` call: the HTTP outcome and the oracle
outcomes a refresh would see (`resolveEnv.now` is also the `time.Now()`
of the deadline check). -/
structure WriteEnv where
  httpResult : HttpResult
  resolveEnv : ResolveEnv

/-- What one `Write` call produces: the returned error (or `none`), the
state the receiver is left in, the encoded `req.Timeseries`, and how many
times `resolveDns` ran during the call. -/
structure WriteResult where
  err : Option Err
  state : ShipperState
  series : List TimeSeries
  resolveCount : Nat

/-- The cursor advance at the top of `Write`:
`p.nextIndex++; if p.nextIndex >= len(p.clients) { p.nextIndex = 0 }`. -/
def advanceCursor (s : ShipperState) : ShipperState :=
  let i := s.nextIndex + 1
  { s with nextIndex := if s.clients.length ≤ i then 0 else i }

/-- `PrometheusRemoteWrite.Write`: advance the cursor, encode the batch,
issue the POST on the acquired handle (marshalling, request construction
and compression are total here: their Go error branches are defensive and
unreachable for well-formed input), then interpret the response:
* transport error → returned as-is, state untouched past the advance;
* status outside 2xx (`resp.StatusCode/100 != 2`) → error carrying the
  status, state untouched past the advance, no refresh;
* 2xx → if `p.nextResolve.Sub(time.Now()) <= 0`, run `resolveDns` once and
  return its error; otherwise return success. -/
def writeStep (env : WriteEnv) (metrics : List Metric) (s : ShipperState) :
    WriteResult :=
  let s1 := advanceCursor s
  let series := encode metrics
  match env.httpResult with
  | .transportError =>
    { err := some .transportError, state := s1, series := series
      resolveCount := 0 }
  | .response status =>
    if status / 100 ≠ 2 then
      { err := some (.remoteRejected status), state := s1, series := series
        resolveCount := 0 }
    else if s1.nextResolve - env.resolveEnv.now ≤ 0 then
      let r := resolveDns env.resolveEnv s1
      { err := r.1, state := r.2, series := series, resolveCount := 1 }
    else
      { err := none, state := s1, series := series, resolveCount := 0 }

/-- `j` consecutive `Write` calls under the same environment (the batch
content does not matter for the cursor claims). -/
def iterWrites (env : WriteEnv) (metrics : List Metric) :
    Nat → ShipperState → ShipperState
  | 0, s => s
  | j + 1, s => (writeStep env metrics (iterWrites env metrics j s)).state

/-! Helper lemmas about the encoder. -/

/-- Appending batches splits the encoded series list. -/
theorem encode_append_cons (pre post : List Metric) (m : Metric) :
    encode (pre ++ m :: post) = encode pre ++ (encodeMetric m ++ encode post) := by
  simp [encode]

/-- A Histogram or Summary record contributes no series at all. -/
theorem encodeMetric_skip (m : Metric)
    (h : m.type = .histogram ∨ m.type = .summary) : encodeMetric m = [] := by
  have hf : ∀ f, encodeField m f = none := by
    intro f
    rcases h with h | h <;> simp [encodeField, h]
  simp [encodeMetric, List.filterMap_eq_nil_iff]
  intro f _
  exact hf f

/-- For a record that is neither Histogram nor Summary, the field loop body
is exactly: coerce the value, and on success emit the sorted labels with
one sample. -/
theorem encodeField_eval (m : Metric) (f : MetricField)
    (h1 : m.type ≠ .histogram) (h2 : m.type ≠ .summary) :
    encodeField m f =
      (coerceValue f.value).map fun v =>
        ⟨seriesLabels m f.key, [⟨timeMs m, v⟩]⟩ := by
  rcases htype : m.type <;> simp_all [encodeField]
  · cases coerceValue f.value <;> rfl
  · cases coerceValue f.value <;> rfl
  · cases coerceValue f.value <;> rfl

/-! Claim theorems. -/

/-- C1: the single record `{name:"mem", tags:{host:"a"}, fields:{used:1024.0},
time:t, kind:Gauge}` encodes to exactly one TimeSeries whose sorted label
list is `[{__name__, mem_used}, {host, a}]`, carrying exactly one Sample
with value `1024.0` and timestamp `t` nanoseconds truncated to
milliseconds. -/
theorem mem_gauge_example_series (t : Int) :
    encode [⟨"mem", [⟨"host", "a"⟩], [⟨"used", .f64 1024⟩], t, .gauge⟩] =
      [⟨[⟨"__name__", "mem_used"⟩, ⟨"host", "a"⟩],
        [⟨Int.tdiv t nsPerMs, 1024⟩]⟩] := rfl

/-- C2: a Histogram or Summary record produces no TimeSeries whatever its
tags and fields are (the encoder is total, so nothing is reported as an
error), while the other records of the batch are encoded exactly as they
would be without it. -/
theorem histogram_summary_skipped (pre post : List Metric) (m : Metric)
    (h : m.type = .histogram ∨ m.type = .summary) :
    encodeMetric m = [] ∧
      encode (pre ++ m :: post) = encode pre ++ encode post := by
  have hm := encodeMetric_skip m h
  refine ⟨hm, ?_⟩
  rw [encode_append_cons, hm]
  simp

/-- Witness for C2 at a concrete Histogram record between two Gauge
records. -/
theorem histogram_summary_skipped_witness :
    encodeMetric ⟨"h", [], [⟨"x", .f64 2⟩], 0, .histogram⟩ = [] ∧
      encode ([⟨"a", [], [⟨"u", .f64 1⟩], 0, .gauge⟩] ++
          ⟨"h", [], [⟨"x", .f64 2⟩], 0, .histogram⟩ ::
            [⟨"b", [], [⟨"v", .f64 3⟩], 0, .gauge⟩]) =
        encode [⟨"a", [], [⟨"u", .f64 1⟩], 0, .gauge⟩] ++
          encode [⟨"b", [], [⟨"v", .f64 3⟩], 0, .gauge⟩] :=
  histogram_summary_skipped
    [⟨"a", [], [⟨"u", .f64 1⟩], 0, .gauge⟩]
    [⟨"b", [], [⟨"v", .f64 3⟩], 0, .gauge⟩]
    ⟨"h", [], [⟨"x", .f64 2⟩], 0, .histogram⟩
    (Or.inl rfl)

/-- C3: in a record that is neither Histogram nor Summary, a text or
boolean field yields no series (and no error — the encoder is total), an
`int64` or `uint64` field yields one series with the value cast to the
sample value, a float field yields one series with the value unchanged;
and such a skipped field leaves its sibling fields' series untouched. -/
theorem field_value_coercion (m : Metric) (f : MetricField)
    (h1 : m.type ≠ .histogram) (h2 : m.type ≠ .summary) :
    (∀ s, f.value = .str s → encodeField m f = none) ∧
    (∀ b, f.value = .boolean b → encodeField m f = none) ∧
    (∀ v : Int, f.value = .i64 v →
      encodeField m f = some ⟨seriesLabels m f.key, [⟨timeMs m, (v : ℚ)⟩]⟩) ∧
    (∀ v : Nat, f.value = .u64 v →
      encodeField m f = some ⟨seriesLabels m f.key, [⟨timeMs m, (v : ℚ)⟩]⟩) ∧
    (∀ v : ℚ, f.value = .f64 v →
      encodeField m f = some ⟨seriesLabels m f.key, [⟨timeMs m, v⟩]⟩) ∧
    (encodeField m f = none →
      ∀ pre post,
        encodeMetric { m with fields := pre ++ f :: post } =
          encodeMetric { m with fields := pre ++ post }) := by
  have he := encodeField_eval m f h1 h2
  refine ⟨?_, ?_, ?_, ?_, ?_, ?_⟩
  · intro s hv; rw [he, hv]; rfl
  · intro b hv; rw [he, hv]; rfl
  · intro v hv; rw [he, hv]; rfl
  · intro v hv; rw [he, hv]; rfl
  · intro v hv; rw [he, hv]; rfl
  · intro hnone pre post
    have harg : ∀ fields : List MetricField,
        encodeField { m with fields := fields } = encodeField m := by
      intro fields; rfl
    simp [encodeMetric, harg, hnone]

/-- Witness for C3 at a concrete Gauge record with a text field. -/
theorem field_value_coercion_witness :
    encodeField ⟨"m", [], [⟨"s", .str "x"⟩], 0, .gauge⟩ ⟨"s", .str "x"⟩ =
      none :=
  ((field_value_coercion ⟨"m", [], [⟨"s", .str "x"⟩], 0, .gauge⟩
      ⟨"s", .str "x"⟩ (by decide) (by decide)).1 "x" rfl)

/-- Every series the encoder emits carries the sorted label list of the
field it came from. -/
theorem encodeField_some_labels (m : Metric) (f : MetricField)
    (ts : TimeSeries) (h : encodeField m f = some ts) :
    ts.labels = seriesLabels m f.key := by
  unfold encodeField at h
  rcases hty : m.type <;> rw [hty] at h
  case histogram => exact Option.noConfusion h
  case summary => exact Option.noConfusion h
  all_goals
    rcases hcv : coerceValue f.value with _ | v <;> rw [hcv] at h
  all_goals
    first
      | exact Option.noConfusion h
      | (injection h with h2; rw [← h2])

/-- C4 is false as stated: with a tag whose key is already `__name__`, the
produced series carries two `__name__` labels, so the label list is
neither strictly sorted (two adjacent equal names) nor does it contain
exactly one `__name__` label. -/
theorem strict_sort_unique_name_cex :
    ∃ ts ∈ encode [⟨"mem", [⟨"__name__", "x"⟩], [⟨"used", .f64 1⟩], 0, .gauge⟩],
      ¬ (List.Pairwise (fun a b => goStrLt a.name b.name = true) ts.labels ∧
         ts.labels.countP (fun l => l.name == "__name__") = 1) := by
  refine ⟨⟨[⟨"__name__", "x"⟩, ⟨"__name__", "mem_used"⟩], [⟨0, 1⟩]⟩,
    by decide, by decide⟩

/-- C4 (amended): every TimeSeries the encoder produces, for any input
records, has its label list sorted ascending by name — non-strictly, since
duplicate names are kept — and contains at least one (not always exactly
one) label named `__name__`. -/
theorem labels_sorted_name_present (ms : List Metric) (ts : TimeSeries)
    (h : ts ∈ encode ms) :
    List.Sorted labelLe ts.labels ∧
      1 ≤ ts.labels.countP (fun l => l.name == "__name__") := by
  rw [encode, List.mem_flatMap] at h
  obtain ⟨m, -, hts⟩ := h
  rw [encodeMetric, List.mem_filterMap] at hts
  obtain ⟨f, -, hf⟩ := hts
  have hl := encodeField_some_labels m f ts hf
  rw [hl]
  constructor
  · exact List.sorted_insertionSort labelLe _
  · have hp := List.perm_insertionSort labelLe
      (commonLabels m ++ [⟨"__name__", seriesName m f.key⟩])
    rw [seriesLabels, sortLabels, hp.countP_eq]
    simp [List.countP_append]

/-- Witness for the amended C4 at the concrete mem/host record. -/
theorem labels_sorted_name_present_witness :
    List.Sorted labelLe
        ((⟨[⟨"__name__", "mem_used"⟩, ⟨"host", "a"⟩], [⟨0, 1024⟩]⟩ :
          TimeSeries)).labels ∧
      1 ≤ ((⟨[⟨"__name__", "mem_used"⟩, ⟨"host", "a"⟩], [⟨0, 1024⟩]⟩ :
          TimeSeries)).labels.countP (fun l => l.name == "__name__") :=
  labels_sorted_name_present
    [⟨"mem", [⟨"host", "a"⟩], [⟨"used", .f64 1024⟩], 0, .gauge⟩]
    ⟨[⟨"__name__", "mem_used"⟩, ⟨"host", "a"⟩], [⟨0, 1024⟩]⟩
    (by decide)

/-- Concrete resolution environment: TLS ok, URL ok, DNS answers one
address. -/
def c5Env : ResolveEnv :=
  ⟨some ⟨0⟩, some "example.com", fun _ => some ["10.0.0.1"], 0, 0⟩

/-- C5 is false as stated: with one resolved address the loop
`for i := 0; i <= 5*len(ips); i++` runs `5·1 + 1 = 6` times, so the pool
does not hold `5 · 1` handles. -/
theorem pool_size_five_n_cex :
    (resolveDns c5Env ⟨[], 0, 0⟩).1 = none ∧
      (resolveDns c5Env ⟨[], 0, 0⟩).2.clients.length ≠ 5 * 1 := by
  constructor <;> decide

/-- C5 (amended): whenever `resolveDns` succeeds after DNS returns `n`
addresses, the resulting pool contains exactly `5·n + 1` transport
handles (the loop bound is inclusive). -/
theorem pool_size_five_n_plus_one (env : ResolveEnv) (s : ShipperState)
    (cfg : TLSConfig) (host : String) (ips : List String)
    (htls : env.tlsResult = some cfg) (hurl : env.urlHost = some host)
    (hdns : env.dns host = some ips) :
    (resolveDns env s).1 = none ∧
      (resolveDns env s).2.clients.length = 5 * ips.length + 1 := by
  simp [resolveDns, htls, hurl, hdns]

/-- Witness for the amended C5 with one resolved address: six handles. -/
theorem pool_size_five_n_plus_one_witness :
    (resolveDns c5Env ⟨[], 0, 0⟩).1 = none ∧
      (resolveDns c5Env ⟨[], 0, 0⟩).2.clients.length = 5 * 1 + 1 :=
  pool_size_five_n_plus_one c5Env ⟨[], 0, 0⟩ ⟨0⟩ "example.com" ["10.0.0.1"]
    rfl rfl rfl

/-- C6: from cursor 0 over a pool of fixed size, `P` consecutive
successful calls (2xx, refresh deadline still in the future) acquire the
handle indices `1, 2, …, P`: after the `j`-th call the cursor is exactly
`j`, having advanced once per call, with the pool and deadline
untouched — so no index repeats before the cursor wraps. -/
theorem round_robin_sequence (env : WriteEnv) (ms : List Metric)
    (s0 : ShipperState) (P : Nat) (st : Nat)
    (h0 : s0.nextIndex = 0) (hP : P < s0.clients.length)
    (hresp : env.httpResult = .response st) (h2xx : st / 100 = 2)
    (hfresh : 0 < s0.nextResolve - env.resolveEnv.now) :
    ∀ j, j ≤ P →
      (iterWrites env ms j s0).clients = s0.clients ∧
      (iterWrites env ms j s0).nextResolve = s0.nextResolve ∧
      (iterWrites env ms j s0).nextIndex = j := by
  intro j
  induction j with
  | zero => intro _; exact ⟨rfl, rfl, h0⟩
  | succ k ih =>
    intro hk
    obtain ⟨hc, hr, hi⟩ := ih (Nat.le_of_succ_le hk)
    have hlen : ¬ s0.clients.length ≤ k + 1 := by omega
    simp only [iterWrites, writeStep, advanceCursor, hresp, hc, hr, hi, hlen,
      if_false, h2xx]
    have hnot : ¬ (2 : Nat) ≠ 2 := by omega
    have hfr : ¬ s0.nextResolve - env.resolveEnv.now ≤ 0 := by omega
    simp [hnot, hfr]

/-- Concrete delivery environment for the round-robin witness: 2xx
response, deadline in the future. -/
def c6Env : WriteEnv :=
  ⟨.response 200, ⟨some ⟨0⟩, some "example.com", fun _ => some [], 0, 0⟩⟩

/-- Concrete shipper state for the round-robin witness: three handles,
cursor 0, deadline 1 ns in the future. -/
def c6S : ShipperState := ⟨List.replicate 3 ⟨⟨0⟩⟩, 0, 1⟩

/-- Witness for C6: two calls over a pool of three move the cursor
0 → 1 → 2. -/
theorem round_robin_sequence_witness :
    (iterWrites c6Env [] 2 c6S).clients = c6S.clients ∧
      (iterWrites c6Env [] 2 c6S).nextResolve = c6S.nextResolve ∧
      (iterWrites c6Env [] 2 c6S).nextIndex = 2 :=
  round_robin_sequence c6Env [] c6S 2 200 rfl (by decide) rfl (by decide)
    (by decide) 2 le_rfl

/-- C7: a response outside the 2xx class makes `Write` return an error
carrying the status code; the handle list, the cursor (as advanced at the
top of the call) and the refresh deadline are all left as they were, and
no resolution is attempted. -/
theorem non2xx_rejects_leaves_state (env : WriteEnv) (ms : List Metric)
    (s : ShipperState) (st : Nat)
    (hresp : env.httpResult = .response st) (hbad : st / 100 ≠ 2) :
    (writeStep env ms s).err = some (.remoteRejected st) ∧
    (writeStep env ms s).state = advanceCursor s ∧
    (writeStep env ms s).state.clients = s.clients ∧
    (writeStep env ms s).state.nextResolve = s.nextResolve ∧
    (writeStep env ms s).resolveCount = 0 := by
  simp [writeStep, hresp, hbad, advanceCursor]

/-- Concrete delivery environment answering 503. -/
def c7Env : WriteEnv :=
  ⟨.response 503, ⟨some ⟨0⟩, some "example.com", fun _ => some [], 0, 0⟩⟩

/-- Witness for C7 at a concrete 503 response. -/
theorem non2xx_rejects_leaves_state_witness :
    (writeStep c7Env [] c6S).err = some (.remoteRejected 503) ∧
    (writeStep c7Env [] c6S).state = advanceCursor c6S ∧
    (writeStep c7Env [] c6S).state.clients = c6S.clients ∧
    (writeStep c7Env [] c6S).state.nextResolve = c6S.nextResolve ∧
    (writeStep c7Env [] c6S).resolveCount = 0 :=
  non2xx_rejects_leaves_state c7Env [] c6S 503 rfl (by decide)

/-- Concrete resolution environment for the cursor counterexample. -/
def c8Env : ResolveEnv :=
  ⟨some ⟨0⟩, some "example.com", fun _ => some ["10.0.0.1"], 0, 0⟩

/-- C8 is false as stated: a successful pool rebuild starting from cursor
3 leaves the cursor at 3, not 0 — `resolveDns` never assigns
`p.nextIndex`. -/
theorem rebuild_cursor_reset_cex :
    (resolveDns c8Env ⟨[], 3, 0⟩).1 = none ∧
      (resolveDns c8Env ⟨[], 3, 0⟩).2.clients ≠ [] ∧
      (resolveDns c8Env ⟨[], 3, 0⟩).2.nextIndex ≠ 0 := by
  refine ⟨by decide, by decide, by decide⟩

/-- C8 (amended): rebuilding the pool leaves the round-robin cursor
exactly where it was, in every branch of `resolveDns`; the cursor only
returns into range at the start of a later `Write`, whose advance wraps
it to 0 once it reaches the new pool size. -/
theorem rebuild_preserves_cursor (env : ResolveEnv) (s : ShipperState) :
    (resolveDns env s).2.nextIndex = s.nextIndex := by
  rcases htls : env.tlsResult with _ | cfg
  · simp [resolveDns, htls]
  · rcases hurl : env.urlHost with _ | host
    · simp [resolveDns, htls, hurl]
    · rcases hdns : env.dns host with _ | ips
      · simp [resolveDns, htls, hurl, hdns]
      · simp [resolveDns, htls, hurl, hdns]

/-- C9: a resolution happens during `Write` exactly when the response is
2xx and the deadline has been reached (`nextResolve ≤ now`), and then it
happens once; when it does and DNS succeeds, the new deadline is
`now + 60s + j·1s` for the jitter `j = rand.Intn(90) < 90`. -/
theorem refresh_timing (env : WriteEnv) (ms : List Metric) (s : ShipperState)
    (hjit : env.resolveEnv.randJitter < 90) :
    (writeStep env ms s).resolveCount ≤ 1 ∧
    ((writeStep env ms s).resolveCount = 1 ↔
      (∃ st, env.httpResult = .response st ∧ st / 100 = 2) ∧
        s.nextResolve - env.resolveEnv.now ≤ 0) ∧
    (∀ st cfg host ips,
      env.httpResult = .response st → st / 100 = 2 →
      s.nextResolve - env.resolveEnv.now ≤ 0 →
      env.resolveEnv.tlsResult = some cfg →
      env.resolveEnv.urlHost = some host →
      env.resolveEnv.dns host = some ips →
      ∃ j : Nat, j < 90 ∧
        (writeStep env ms s).state.nextResolve =
          env.resolveEnv.now + 60 * nsPerSecond + (j : Int) * nsPerSecond) := by
  rcases hhr : env.httpResult with _ | st
  · refine ⟨by simp [writeStep, hhr], by simp [writeStep, hhr], ?_⟩
    intro st _ _ _ hresp
    exact HttpResult.noConfusion hresp
  · by_cases h2 : st / 100 = 2
    · by_cases hdue : s.nextResolve - env.resolveEnv.now ≤ 0
      · have hnot : ¬ st / 100 ≠ 2 := by omega
        refine ⟨?_, ?_, ?_⟩
        · simp [writeStep, hhr, hnot, advanceCursor, hdue]
        · simp [writeStep, hhr, hnot, advanceCursor, hdue, h2]
        · intro st' cfg host ips hresp h2' hdue' htls hurl hdns
          refine ⟨env.resolveEnv.randJitter, hjit, ?_⟩
          simp [writeStep, hhr, hnot, advanceCursor, hdue, resolveDns,
            htls, hurl, hdns]
      · have hnot : ¬ st / 100 ≠ 2 := by omega
        refine ⟨?_, ?_, ?_⟩
        · simp [writeStep, hhr, hnot, advanceCursor, hdue]
        · simp [writeStep, hhr, hnot, advanceCursor, hdue]
        · intro st' cfg host ips hresp h2' hdue'
          exact absurd hdue' hdue
    · refine ⟨?_, ?_, ?_⟩
      · simp [writeStep, hhr, h2]
      · simp only [writeStep, hhr]
        rw [if_pos h2]
        simp only
        constructor
        · intro h; exact absurd h (by omega)
        · rintro ⟨⟨st', hst', h2'⟩, -⟩
          injection hst' with he
          exact absurd (he ▸ h2') h2
      · intro st' cfg host ips hresp h2' hdue' htls hurl hdns
        injection hresp with he
        exact absurd (by rw [he]; exact h2' : st / 100 = 2) h2

/-- Concrete delivery environment for the refresh witness: 2xx response,
deadline already due, DNS answering one address, jitter 7. -/
def c9Env : WriteEnv :=
  ⟨.response 204, ⟨some ⟨0⟩, some "example.com", fun _ => some ["10.0.0.1"],
    100, 7⟩⟩

/-- Witness for C9 at a due deadline and a 204 response. -/
theorem refresh_timing_witness :
    (writeStep c9Env [] ⟨[⟨⟨0⟩⟩], 0, 50⟩).resolveCount ≤ 1 ∧
    ((writeStep c9Env [] ⟨[⟨⟨0⟩⟩], 0, 50⟩).resolveCount = 1 ↔
      (∃ st, c9Env.httpResult = .response st ∧ st / 100 = 2) ∧
        (⟨[⟨⟨0⟩⟩], 0, 50⟩ : ShipperState).nextResolve -
          c9Env.resolveEnv.now ≤ 0) ∧
    (∀ st cfg host ips,
      c9Env.httpResult = .response st → st / 100 = 2 →
      (⟨[⟨⟨0⟩⟩], 0, 50⟩ : ShipperState).nextResolve -
        c9Env.resolveEnv.now ≤ 0 →
      c9Env.resolveEnv.tlsResult = some cfg →
      c9Env.resolveEnv.urlHost = some host →
      c9Env.resolveEnv.dns host = some ips →
      ∃ j : Nat, j < 90 ∧
        (writeStep c9Env [] ⟨[⟨⟨0⟩⟩], 0, 50⟩).state.nextResolve =
          c9Env.resolveEnv.now + 60 * nsPerSecond + (j : Int) * nsPerSecond) :=
  refresh_timing c9Env [] ⟨[⟨⟨0⟩⟩], 0, 50⟩ (by decide)

/-- C10: `resolveDns` empties the pool before parsing the URL and doing
the DNS lookup, so a parse or lookup failure — including one triggered by
the post-success refresh — leaves an empty pool (cursor and deadline
preserved, state not restored), while a TLS-configuration failure, checked
first, leaves the whole previous state intact. -/
theorem resolve_failure_states (env : ResolveEnv) (s : ShipperState) :
    (env.tlsResult = none → resolveDns env s = (some .tlsConfigError, s)) ∧
    (∀ cfg, env.tlsResult = some cfg → env.urlHost = none →
      resolveDns env s = (some .urlParseError, { s with clients := [] })) ∧
    (∀ cfg host, env.tlsResult = some cfg → env.urlHost = some host →
      env.dns host = none →
      resolveDns env s = (some .dnsError, { s with clients := [] })) := by
  refine ⟨?_, ?_, ?_⟩
  · intro h; simp [resolveDns, h]
  · intro cfg h1 h2; simp [resolveDns, h1, h2]
  · intro cfg host h1 h2 h3; simp [resolveDns, h1, h2, h3]

/-- Concrete environment whose TLS material is invalid. -/
def c10EnvTls : ResolveEnv := ⟨none, some "example.com", fun _ => some [], 0, 0⟩

/-- Concrete environment whose DNS lookup fails. -/
def c10EnvDns : ResolveEnv := ⟨some ⟨0⟩, some "example.com", fun _ => none, 5, 0⟩

/-- Witness for C10: TLS failure keeps the one-handle pool; DNS failure
empties it, keeping cursor 2 and deadline 7. -/
theorem resolve_failure_states_witness :
    resolveDns c10EnvTls ⟨[⟨⟨0⟩⟩], 2, 7⟩ =
        (some .tlsConfigError, ⟨[⟨⟨0⟩⟩], 2, 7⟩) ∧
      resolveDns c10EnvDns ⟨[⟨⟨0⟩⟩], 2, 7⟩ = (some .dnsError, ⟨[], 2, 7⟩) :=
  ⟨(resolve_failure_states c10EnvTls ⟨[⟨⟨0⟩⟩], 2, 7⟩).1 rfl,
   (resolve_failure_states c10EnvDns ⟨[⟨⟨0⟩⟩], 2, 7⟩).2.2 ⟨0⟩ "example.com"
     rfl rfl rfl⟩
